import Mathlib

/-
  Verification of the adaptive statistical decision engine
  (src/src/statistics-engine.py, class StatisticsEngine).

  The engine is embedded shallowly over the real numbers: every float is a
  real number, every numpy reduction is a List operation, and every call into
  the external scipy library is a field of the `Scipy` record below, so that
  theorems quantify over the library's possible outputs where the engine
  treats them as black boxes (normal/t/F distribution functions), and witness
  instances supply concrete stand-ins where needed.  Fallible library calls
  (those that can raise, such as stats.shapiro on fewer than 3 observations)
  are modelled with `Except String`, matching the engine's top-level
  try/except that converts any raised error into a failure response.
-/

noncomputable section

open scoped BigOperators

/-! ## Core list statistics (numpy reductions used by the engine) -/

/-- np.mean over a list: sum divided by length (junk value 0/0 = 0 on []). -/
def mean (g : List ℝ) : ℝ := g.sum / g.length

/-- Within-group sum of squared deviations, np.sum((g - np.mean(g))**2). -/
def sumSqDev (g : List ℝ) : ℝ := (g.map (fun x => (x - mean g) ^ 2)).sum

/-- Sample variance, np.var(g, ddof=1). -/
def varSample (g : List ℝ) : ℝ := sumSqDev g / ((g.length : ℝ) - 1)

/-- Sample standard deviation, np.std(g, ddof=1). -/
def stdSample (g : List ℝ) : ℝ := Real.sqrt (varSample g)

/-- np.min over a nonempty list (junk 0 on []). -/
def listMin : List ℝ → ℝ
  | [] => 0
  | x :: xs => xs.foldl min x

/-- np.max over a nonempty list (junk 0 on []). -/
def listMax : List ℝ → ℝ
  | [] => 0
  | x :: xs => xs.foldl max x

/-- Insert into a sorted list (ascending). -/
def insertSorted (x : ℝ) : List ℝ → List ℝ
  | [] => [x]
  | y :: ys => if x ≤ y then x :: y :: ys else y :: insertSorted x ys

/-- Ascending sort, used to embed numpy percentile computations. -/
def sortReal : List ℝ → List ℝ
  | [] => []
  | x :: xs => insertSorted x (sortReal xs)

/-- np.percentile with linear interpolation (the numpy default method). -/
def percentile (g : List ℝ) (p : ℝ) : ℝ :=
  let s := sortReal g
  let n := g.length
  let h := ((n : ℝ) - 1) * p / 100
  let i := (⌊h⌋).toNat
  let lo := s.getD i 0
  let hi := s.getD (min (i + 1) (n - 1)) 0
  lo + (h - (⌊h⌋ : ℝ)) * (hi - lo)

/-- (group - mean) / std, the standardization on the n >= 50 normality path. -/
def standardize (g : List ℝ) : List ℝ :=
  g.map fun x => (x - mean g) / stdSample g

/-- The average rank that scipy.stats.rankdata (method "average") assigns to
the value `x` within the data `xs`: the count of strictly smaller entries plus
half of (count of equal entries + 1). -/
def rankOf (xs : List ℝ) (x : ℝ) : ℝ :=
  (xs.countP (fun y => decide (y < x)) : ℝ) +
    ((xs.countP (fun y => decide (y = x)) : ℝ) + 1) / 2

/-- scipy.stats.rankdata with average ranks for ties, as called by the
engine's Dunn test. -/
def rankdata (xs : List ℝ) : List ℝ := xs.map (rankOf xs)

/-! ## The external scipy library, as the black box the engine sees -/

/-- The scipy.stats calls (and the host language's float formatting) the
engine makes.  Calls that may raise are `Except`-valued; distribution
functions are plain real functions.  Theorems quantify over this record;
witnesses instantiate it with concrete stand-ins. -/
structure Scipy where
  shapiro : List ℝ → Except String (ℝ × ℝ)
  kstest : List ℝ → Except String (ℝ × ℝ)
  skew : List ℝ → ℝ
  kurtosis : List ℝ → ℝ
  levene : List (List ℝ) → Except String (ℝ × ℝ)
  bartlett : List (List ℝ) → Except String (ℝ × ℝ)
  ttest_1samp : List ℝ → ℝ → Except String (ℝ × ℝ)
  ttest_ind : List ℝ → List ℝ → Bool → Except String (ℝ × ℝ)
  mannwhitneyu : List ℝ → List ℝ → Bool → Except String (ℝ × ℝ)
  f_oneway : List (List ℝ) → Except String (ℝ × ℝ)
  kruskal : List (List ℝ) → Except String (ℝ × ℝ)
  normCdf : ℝ → ℝ
  tCdf : ℝ → ℝ → ℝ
  tPpf : ℝ → ℝ → ℝ
  fCdf : ℝ → ℝ → ℝ → ℝ
  fmt : ℕ → ℝ → String

/-! ## Engine constants (StatisticsEngine.__init__) -/

/-- self.significance_level, set once in __init__ and never changed. -/
def significance_level : ℝ := 0.05

/-- self.confidence_level, set once in __init__ and never changed. -/
def confidence_level : ℝ := 0.95

/-! ## Response data model -/

structure DescStat where
  label : String
  n : ℕ
  meanv : ℝ
  median : ℝ
  std : ℝ
  se : ℝ
  minv : ℝ
  maxv : ℝ
  q1 : ℝ
  q3 : ℝ
  iqr : ℝ
  ci95_lower : ℝ
  ci95_upper : ℝ
  cv : Option ℝ

structure NormEntry where
  label : String
  testName : String
  statistic : ℝ
  p_value : ℝ
  is_normal : Bool
  skewness : ℝ
  kurtosis : ℝ
  interpretation : String

structure NormalityOut where
  results : List NormEntry
  all_normal : Bool

structure TestDetail where
  statistic : ℝ
  p_value : ℝ
  interpretation : String

/-- The homogeneity stage output.  The code returns a dict whose `results`
key is null below 2 groups; the two text keys (`message` in the trivial
branch, `recommendation` otherwise) are modelled by the single `note`. -/
structure HomogeneityOut where
  results : Option (TestDetail × TestDetail)
  equal_variance : Bool
  note : String

structure EffectSize where
  value : ℝ
  magnitude : String
  interpretation : String

/-- The seven terminal tests of the decision table.  The code carries them as
strings; the post-hoc dispatch tests substring containment of "ANOVA" and
"Kruskal" in them, reproduced by `hasANOVA` / `hasKruskal` below. -/
inductive TestType where
  | oneSampleT
  | independentT
  | welchT
  | mannWhitney
  | oneWayAnova
  | welchAnova
  | kruskalWallis
deriving DecidableEq, Repr

/-- The test-type string of the code (apostrophes omitted from literals). -/
def testTypeName : TestType → String
  | .oneSampleT => "One-sample t-test"
  | .independentT => "Independent t-test"
  | .welchT => "Welchs t-test"
  | .mannWhitney => "Mann-Whitney U test"
  | .oneWayAnova => "One-way ANOVA"
  | .welchAnova => "Welchs ANOVA"
  | .kruskalWallis => "Kruskal-Wallis H test"

/-- Python's `'ANOVA' in test_type` on the code's test-type strings. -/
def TestType.hasANOVA : TestType → Bool
  | .oneWayAnova => true
  | .welchAnova => true
  | _ => false

/-- Python's `'Kruskal' in test_type` on the code's test-type strings. -/
def TestType.hasKruskal : TestType → Bool
  | .kruskalWallis => true
  | _ => false

structure TestOut where
  test_type : TestType
  statistic : ℝ
  p_value : ℝ
  significant : Bool
  effect_size : EffectSize
  interpretation : String

/-- What each pairwise post-hoc helper returns: p-value plus CI bounds. -/
structure PairResult where
  p_value : ℝ
  ci_lower : ℝ
  ci_upper : ℝ

structure Comparison where
  group1 : String
  group2 : String
  mean_diff : ℝ
  p_value : ℝ
  adjusted_p : ℝ
  significant : Bool
  ci_lower : ℝ
  ci_upper : ℝ

structure PostHocOut where
  method : String
  comparisons : List Comparison
  bonferroni_alpha : ℝ

structure SuccessRecord where
  descriptive : List DescStat
  normality : NormalityOut
  homogeneity : HomogeneityOut
  test : TestOut
  post_hoc : Option PostHocOut
  summary : String

/-- The JSON response of `analyze`: either the success record or the
`{success: false, error}` produced by the top-level except clause. -/
inductive AnalyzeResponse where
  | success (r : SuccessRecord)
  | failure (error : String)

/-- The `success` boolean of the response. -/
def AnalyzeResponse.isSuccess : AnalyzeResponse → Bool
  | .success _ => true
  | .failure _ => false

/-- The `post_hoc` field of the response (null on failure). -/
def AnalyzeResponse.postHoc : AnalyzeResponse → Option PostHocOut
  | .success r => r.post_hoc
  | .failure _ => none

/-- The `test.significant` field of the response (false on failure). -/
def AnalyzeResponse.testSignificant : AnalyzeResponse → Bool
  | .success r => r.test.significant
  | .failure _ => false

/-! ## Effect sizes (EffectSizeCalculator family) -/

/-- The sequential magnitude thresholds shared by both Cohen's d variants. -/
def dMagnitude (d : ℝ) : String :=
  if |d| ≥ 0.8 then "large"
  else if |d| ≥ 0.5 then "medium"
  else if |d| ≥ 0.2 then "small"
  else "negligible"

/-- The pooled standard deviation of calculate_cohens_d. -/
def pooledStd (g1 g2 : List ℝ) : ℝ :=
  Real.sqrt ((((g1.length : ℝ) - 1) * varSample g1 + ((g2.length : ℝ) - 1) * varSample g2) /
    ((g1.length : ℝ) + (g2.length : ℝ) - 2))

/-- calculate_cohens_d: the two-sample Cohen's d.  The division by the pooled
standard deviation is performed unconditionally, exactly as in the source. -/
def calculate_cohens_d (g1 g2 : List ℝ) : EffectSize :=
  let d := (mean g1 - mean g2) / pooledStd g1 g2
  { value := d, magnitude := dMagnitude d,
    interpretation := "Cohens d (" ++ dMagnitude d ++ " effect)" }

/-- calculate_cohens_d_one_sample: (mean - mu) / std, unconditionally. -/
def calculate_cohens_d_one_sample (g : List ℝ) (mu : ℝ) : EffectSize :=
  let d := (mean g - mu) / stdSample g
  { value := d, magnitude := dMagnitude d,
    interpretation := "Cohens d (" ++ dMagnitude d ++ " effect)" }

/-- The magnitude thresholds shared by eta/omega/epsilon squared. -/
def sqMagnitude (v : ℝ) : String :=
  if v ≥ 0.14 then "large" else if v ≥ 0.06 then "medium" else "small"

/-- calculate_eta_squared: SS_between / SS_total. -/
def calculate_eta_squared (groups : List (List ℝ)) (fStat : ℝ) : EffectSize :=
  let allData := groups.flatten
  let grand := mean allData
  let ssBetween := (groups.map (fun g => (g.length : ℝ) * (mean g - grand) ^ 2)).sum
  let ssTotal := (allData.map (fun x => (x - grand) ^ 2)).sum
  let v := ssBetween / ssTotal
  { value := v, magnitude := sqMagnitude v,
    interpretation := "eta squared (" ++ sqMagnitude v ++ " effect)" }

/-- calculate_omega_squared: recomputes a fresh classical one-way ANOVA F via
stats.f_oneway and uses that F, not the Welch F of the omnibus test. -/
def calculate_omega_squared (s : Scipy) (groups : List (List ℝ)) :
    Except String EffectSize := do
  let k : ℝ := groups.length
  let nTotal : ℝ := ((groups.map List.length).sum : ℕ)
  let (fStat, _) ← s.f_oneway groups
  let dfBetween := k - 1
  let dfWithin := nTotal - k
  let v := max 0 ((fStat - 1) / (fStat + (dfWithin + 1) / dfBetween))
  pure { value := v, magnitude := sqMagnitude v,
         interpretation := "omega squared (" ++ sqMagnitude v ++ " effect)" }

/-- calculate_rank_biserial: 1 - 2U/(n1 n2), with a second mannwhitneyu call. -/
def calculate_rank_biserial (s : Scipy) (g1 g2 : List ℝ) :
    Except String EffectSize := do
  let (u, _) ← s.mannwhitneyu g1 g2 false
  let r := 1 - (2 * u) / ((g1.length : ℝ) * (g2.length : ℝ))
  let m := if |r| ≥ 0.5 then "large" else if |r| ≥ 0.3 then "medium"
    else if |r| ≥ 0.1 then "small" else "negligible"
  pure { value := r, magnitude := m, interpretation := "r (" ++ m ++ " effect)" }

/-- calculate_epsilon_squared: H / (N - 1). -/
def calculate_epsilon_squared (groups : List (List ℝ)) (hStat : ℝ) : EffectSize :=
  let nTotal : ℝ := ((groups.map List.length).sum : ℕ)
  let v := hStat / (nTotal - 1)
  { value := v, magnitude := sqMagnitude v,
    interpretation := "epsilon squared (" ++ sqMagnitude v ++ " effect)" }

/-! ## Pipeline stages -/

/-- calculate_descriptive_stats on one (group, label) pair. -/
def descStatOf (s : Scipy) (g : List ℝ) (label : String) : DescStat :=
  let n := g.length
  let m := mean g
  let std := stdSample g
  let se := std / Real.sqrt n
  let tCritical := s.tPpf ((1 + confidence_level) / 2) ((n : ℝ) - 1)
  { label := label, n := n, meanv := m, median := percentile g 50, std := std,
    se := se, minv := listMin g, maxv := listMax g,
    q1 := percentile g 25, q3 := percentile g 75,
    iqr := percentile g 75 - percentile g 25,
    ci95_lower := m - tCritical * se, ci95_upper := m + tCritical * se,
    cv := if m ≠ 0 then some (std / m * 100) else none }

/-- calculate_descriptive_stats: per-sample summaries over zip(groups, labels). -/
def calculate_descriptive_stats (s : Scipy) (groups : List (List ℝ))
    (labels : List String) : List DescStat :=
  (groups.zip labels).map fun p => descStatOf s p.1 p.2

/-- The loop body of test_normality for one (group, label) pair: choose
Shapiro-Wilk below 50 observations, else Kolmogorov-Smirnov on the
standardized sample.  There is no n < 3 branch in the source. -/
def normalityEntry (s : Scipy) (g : List ℝ) (label : String) :
    Except String NormEntry := do
  let (statistic, p, testName) ←
    if g.length < 50 then
      (s.shapiro g).map fun r => (r.1, r.2, "Shapiro-Wilk")
    else
      (s.kstest (standardize g)).map fun r => (r.1, r.2, "Kolmogorov-Smirnov")
  let isN := decide (p > significance_level)
  pure { label := label, testName := testName, statistic := statistic,
         p_value := p, is_normal := isN,
         skewness := s.skew g, kurtosis := s.kurtosis g,
         interpretation :=
           if isN then "정규분포를 따름" else "정규분포를 따르지 않음" }

/-- The test_normality loop: entries in order, all_normal as the running
conjunction; the first library error aborts the loop (a raised exception). -/
def normalityLoop (s : Scipy) : List (List ℝ × String) →
    Except String (List NormEntry × Bool)
  | [] => .ok ([], true)
  | (g, label) :: rest => do
    let e ← normalityEntry s g label
    let (entries, allRest) ← normalityLoop s rest
    pure (e :: entries, e.is_normal && allRest)

/-- test_normality. -/
def test_normality (s : Scipy) (groups : List (List ℝ)) (labels : List String) :
    Except String NormalityOut := do
  let (results, allNormal) ← normalityLoop s (groups.zip labels)
  pure { results := results, all_normal := allNormal }

/-- test_homogeneity: below 2 groups the trivial branch (null results,
equal_variance true); otherwise Levene and Bartlett both run but only the
Levene p-value decides `equal_variance`. -/
def test_homogeneity (s : Scipy) (groups : List (List ℝ))
    (_labels : List String) : Except String HomogeneityOut :=
  if groups.length < 2 then
    .ok { results := none, equal_variance := true,
          note := "단일 그룹으로 등분산성 검정 불필요" }
  else do
    let (leveneStat, leveneP) ← s.levene groups
    let (bartlettStat, bartlettP) ← s.bartlett groups
    let eqv := decide (leveneP > significance_level)
    let levDetail : TestDetail :=
      { statistic := leveneStat, p_value := leveneP,
        interpretation :=
          if eqv then "등분산 가정 만족" else "등분산 가정 위배" }
    let barDetail : TestDetail :=
      { statistic := bartlettStat, p_value := bartlettP,
        interpretation :=
          if bartlettP > significance_level then "등분산 가정 만족"
          else "등분산 가정 위배" }
    pure { results := some (levDetail, barDetail),
           equal_variance := eqv,
           note := "Levene 검정 결과를 사용 (정규성 가정 불필요)" }

/-- welch_anova: the manual Welch ANOVA of the source, with the F
distribution CDF passed in as the black box stats.f.cdf. -/
def welch_anova (fCdf : ℝ → ℝ → ℝ → ℝ) (groups : List (List ℝ)) : ℝ × ℝ :=
  let k : ℝ := groups.length
  let wOf : List ℝ → ℝ := fun g => (g.length : ℝ) / varSample g
  let wSum := (groups.map wOf).sum
  let grandMean := (groups.map fun g => wOf g * mean g).sum / wSum
  let numerator := (groups.map fun g => wOf g * (mean g - grandMean) ^ 2).sum / (k - 1)
  let lambdaVal :=
    3 * (groups.map fun g => (1 - wOf g / wSum) ^ 2 / ((g.length : ℝ) - 1)).sum /
      (k ^ 2 - 1)
  let denominator := 1 + (2 * (k - 2) * lambdaVal) / (k ^ 2 - 1)
  let fStat := numerator / denominator
  (fStat, 1 - fCdf fStat (k - 1) (1 / lambdaVal))

/-- interpret_results. -/
def interpret_results (tt : TestType) (significant : Bool) (eff : EffectSize) :
    String :=
  if significant then
    testTypeName tt ++ " 결과 통계적으로 유의한 차이가 발견되었습니다 (p < 0.05). " ++
      "효과 크기는 " ++ eff.magnitude ++ "입니다."
  else
    testTypeName tt ++ " 결과 통계적으로 유의한 차이가 발견되지 않았습니다 (p ≥ 0.05)."

/-- Assembles the TestResult dict of perform_statistical_test. -/
def mkTestOut (tt : TestType) (stat p : ℝ) (eff : EffectSize) : TestOut :=
  { test_type := tt, statistic := stat, p_value := p,
    significant := decide (p < significance_level), effect_size := eff,
    interpretation := interpret_results tt (decide (p < significance_level)) eff }

/-- perform_statistical_test: the decision table over
(group count, all_normal, equal_variance). -/
def perform_statistical_test (s : Scipy) (groups : List (List ℝ))
    (_labels : List String) (isNorm eqVar : Bool) : Except String TestOut :=
  if groups.length = 1 then do
    let (t, p) ← s.ttest_1samp (groups.getD 0 []) 0
    pure (mkTestOut .oneSampleT t p
      (calculate_cohens_d_one_sample (groups.getD 0 []) 0))
  else if groups.length = 2 then
    let g1 := groups.getD 0 []
    let g2 := groups.getD 1 []
    if isNorm then do
      let (t, p) ← s.ttest_ind g1 g2 eqVar
      pure (mkTestOut (if eqVar then .independentT else .welchT) t p
        (calculate_cohens_d g1 g2))
    else do
      let (u, p) ← s.mannwhitneyu g1 g2 true
      let eff ← calculate_rank_biserial s g1 g2
      pure (mkTestOut .mannWhitney u p eff)
  else
    if isNorm then
      if eqVar then do
        let (f, p) ← s.f_oneway groups
        pure (mkTestOut .oneWayAnova f p (calculate_eta_squared groups f))
      else do
        let fp := welch_anova s.fCdf groups
        let eff ← calculate_omega_squared s groups
        pure (mkTestOut .welchAnova fp.1 fp.2 eff)
    else do
      let (h, p) ← s.kruskal groups
      pure (mkTestOut .kruskalWallis h p (calculate_epsilon_squared groups h))

/-! ## Post-hoc pairwise methods -/

/-- The q statistic of tukey_hsd_pair: MSE pooled over all groups,
se = sqrt(MSE (1/n1 + 1/n2) / 2), q = |mean1 - mean2| / se. -/
def tukey_q (g1 g2 : List ℝ) (k : ℕ) (allGroups : List (List ℝ)) : ℝ :=
  let mse := (allGroups.map sumSqDev).sum / ((allGroups.flatten.length : ℝ) - k)
  let se := Real.sqrt (mse * (1 / (g1.length : ℝ) + 1 / (g2.length : ℝ)) / 2)
  |mean g1 - mean g2| / se

/-- tukey_hsd_pair: the approximate Tukey HSD of the source.  Note the
p-value is 1 - normCdf(q / sqrt 2), with no doubling, and the CI margin uses
the fixed approximate critical value 3.5. -/
def tukey_hsd_pair (normCdf : ℝ → ℝ) (g1 g2 : List ℝ) (k : ℕ)
    (allGroups : List (List ℝ)) : PairResult :=
  let mse := (allGroups.map sumSqDev).sum / ((allGroups.flatten.length : ℝ) - k)
  let se := Real.sqrt (mse * (1 / (g1.length : ℝ) + 1 / (g2.length : ℝ)) / 2)
  let margin := 3.5 * se
  { p_value := 1 - normCdf (tukey_q g1 g2 k allGroups / Real.sqrt 2),
    ci_lower := (mean g1 - mean g2) - margin,
    ci_upper := (mean g1 - mean g2) + margin }

/-- games_howell_pair: Welch-Satterthwaite df, p = 2 (1 - tCdf t df). -/
def games_howell_pair (s : Scipy) (g1 g2 : List ℝ) : PairResult :=
  let n1 : ℝ := g1.length
  let n2 : ℝ := g2.length
  let v1 := varSample g1
  let v2 := varSample g2
  let se := Real.sqrt (v1 / n1 + v2 / n2)
  let t := |mean g1 - mean g2| / se
  let df := (v1 / n1 + v2 / n2) ^ 2 /
    ((v1 / n1) ^ 2 / (n1 - 1) + (v2 / n2) ^ 2 / (n2 - 1))
  let margin := s.tPpf (1 - significance_level / 2) df * se
  { p_value := 2 * (1 - s.tCdf t df),
    ci_lower := (mean g1 - mean g2) - margin,
    ci_upper := (mean g1 - mean g2) + margin }

/-- The z statistic of dunn_test_pair, exactly as in the source: ranks are
computed over the concatenation of ALL groups, but the two mean ranks are
taken from the first n1 and the following n2 positions of that pooled rank
array (the slots of the first groups in the pooled order, whatever pair was
requested), and the variance term is always N(N+1)/12 with no tie
correction. -/
def dunn_z (g1 g2 : List ℝ) (allGroups : List (List ℝ)) : ℝ :=
  let allData := allGroups.flatten
  let nTotal : ℝ := allData.length
  let ranks := rankdata allData
  let n1 := g1.length
  let n2 := g2.length
  let rank1 := mean (ranks.take n1)
  let rank2 := mean ((ranks.drop n1).take n2)
  let se := Real.sqrt ((nTotal * (nTotal + 1) / 12) *
    (1 / (n1 : ℝ) + 1 / (n2 : ℝ)))
  |rank1 - rank2| / se

/-- dunn_test_pair: p = 2 (1 - normCdf z), no confidence interval. -/
def dunn_test_pair (normCdf : ℝ → ℝ) (g1 g2 : List ℝ)
    (allGroups : List (List ℝ)) : PairResult :=
  { p_value := 2 * (1 - normCdf (dunn_z g1 g2 allGroups)),
    ci_lower := 0, ci_upper := 0 }

/-! ## Post-hoc driver -/

inductive PosthocMethod where
  | tukey
  | gamesHowell
  | dunn
deriving DecidableEq

/-- The method dispatch of perform_post_hoc: substring tests on the
test-type string, then the equal-variance split; anything else falls through
(the loop body's `continue`). -/
def resolveMethod (tt : TestType) (eqVar : Bool) :
    Option (PosthocMethod × String) :=
  if tt.hasANOVA then
    some (if eqVar then (.tukey, "Tukey HSD") else (.gamesHowell, "Games-Howell"))
  else if tt.hasKruskal then some (.dunn, "Dunns test")
  else none

/-- All index pairs (i, j) with i < j < n, i ascending then j ascending. -/
def pairIndices (n : ℕ) : List (ℕ × ℕ) :=
  (List.range n).flatMap fun i =>
    ((List.range n).filter fun j => i < j).map fun j => (i, j)

/-- One pairwise comparison record of perform_post_hoc. -/
def mkComparison (s : Scipy) (m : PosthocMethod) (groups : List (List ℝ))
    (labels : List String) (nC : ℝ) (ij : ℕ × ℕ) : Comparison :=
  let g1 := groups.getD ij.1 []
  let g2 := groups.getD ij.2 []
  let r := match m with
    | .tukey => tukey_hsd_pair s.normCdf g1 g2 groups.length groups
    | .gamesHowell => games_howell_pair s g1 g2
    | .dunn => dunn_test_pair s.normCdf g1 g2 groups
  let adj := min (r.p_value * nC) 1
  { group1 := labels.getD ij.1 "", group2 := labels.getD ij.2 "",
    mean_diff := mean g1 - mean g2, p_value := r.p_value, adjusted_p := adj,
    significant := decide (adj < significance_level),
    ci_lower := r.ci_lower, ci_upper := r.ci_upper }

/-- perform_post_hoc.  In the source, `method` and `n_comparisons` are only
assigned inside matched loop iterations, so an unmatched test type or an
empty pair list would raise a NameError at the final return; both corners are
modelled as errors. -/
def perform_post_hoc (s : Scipy) (groups : List (List ℝ))
    (labels : List String) (tt : TestType) (_isNorm eqVar : Bool) :
    Except String PostHocOut :=
  match resolveMethod tt eqVar with
  | none => .error "NameError: name method is not defined"
  | some md =>
    let n := groups.length
    let nC : ℝ := (n : ℝ) * ((n : ℝ) - 1) / 2
    let comps := (pairIndices n).map (mkComparison s md.1 groups labels nC)
    if comps.isEmpty then .error "NameError: name n_comparisons is not defined"
    else .ok { method := md.2, comparisons := comps,
               bonferroni_alpha := significance_level / nC }

/-! ## Summary and top-level analyze -/

/-- generate_summary (string content mirrors the source, apostrophes and
float formatting delegated to the host formatter). -/
def generate_summary (s : Scipy) (groups : List (List ℝ))
    (_labels : List String) (test : TestOut) (ph : Option PostHocOut) : String :=
  let base :=
    "총 " ++ toString groups.length ++ "개 그룹, " ++
      toString (groups.map List.length).sum ++ "개 데이터를 분석했습니다.\n" ++
    "사용된 검정: " ++ testTypeName test.test_type ++ "\n" ++
    "검정 통계량: " ++ s.fmt 4 test.statistic ++ ", p-value: " ++
      s.fmt 4 test.p_value ++ "\n" ++
    "결과: " ++ test.interpretation ++ "\n"
  match ph with
  | none => base
  | some p =>
    let sigPairs := (p.comparisons.filter fun c => c.significant).map fun c =>
      c.group1 ++ " vs " ++ c.group2
    if sigPairs.isEmpty then base
    else base ++ "\n사후분석(" ++ p.method ++ ") 결과 유의한 차이를 보인 그룹 쌍:\n" ++
      String.join (sigPairs.map fun pr => "  - " ++ pr ++ "\n")

structure Options where
  alpha : ℝ
  confidence : ℝ

/-- The request dict consumed by analyze: groups, optional labels, options.
The source reads only `groups` and `labels`. -/
structure Request where
  groups : List (List ℝ)
  labels : Option (List String)
  options : Options

/-- The default label list of analyze. -/
def defaultLabels (n : ℕ) : List String :=
  (List.range n).map fun i => "그룹 " ++ toString (i + 1)

/-- data.get('labels', default). -/
def labelsOf (req : Request) : List String :=
  match req.labels with
  | some l => l
  | none => defaultLabels req.groups.length

/-- The body of analyze up to the except clause: the staged pipeline in
source order, each stage able to raise. -/
def analyzeE (s : Scipy) (req : Request) : Except String SuccessRecord := do
  let groups := req.groups
  let labels := labelsOf req
  let descriptive := calculate_descriptive_stats s groups labels
  let normality ← test_normality s groups labels
  let homogeneity ← test_homogeneity s groups labels
  let test ← perform_statistical_test s groups labels
    normality.all_normal homogeneity.equal_variance
  let postHoc ←
    if 2 < groups.length ∧ test.significant = true then
      Except.map some (perform_post_hoc s groups labels test.test_type
        normality.all_normal homogeneity.equal_variance)
    else pure none
  pure { descriptive := descriptive, normality := normality,
         homogeneity := homogeneity, test := test, post_hoc := postHoc,
         summary := generate_summary s groups labels test postHoc }

/-- analyze: the try/except wrapper returning the structured response. -/
def analyze (s : Scipy) (req : Request) : AnalyzeResponse :=
  match analyzeE s req with
  | .ok r => .success r
  | .error e => .failure e

/-! ## Bridging list reductions and the spec's Σ-notation -/

lemma listMapSumFin {α : Type} (f : α → ℝ) (l : List α) :
    (l.map f).sum = ∑ i : Fin l.length, f (l.get i) := by
  conv_lhs => rw [← List.ofFn_get l, List.map_ofFn, List.sum_ofFn]
  rfl

lemma listSumFin (l : List ℝ) : l.sum = ∑ i : Fin l.length, l.get i := by
  conv_lhs => rw [← List.ofFn_get l, List.sum_ofFn]

/-! ## Spec-side formulations (Fin-indexed sums, following the spec text) -/

/-- The spec's mean of a sample, written with a Σ over indices. -/
def specMean (g : List ℝ) : ℝ := (∑ i : Fin g.length, g.get i) / g.length

/-- The spec's within-group sum of squares. -/
def specSS (g : List ℝ) : ℝ := ∑ i : Fin g.length, (g.get i - specMean g) ^ 2

/-- The spec's sample variance (divisor n - 1). -/
def specVar (g : List ℝ) : ℝ := specSS g / ((g.length : ℝ) - 1)

lemma specMean_eq (g : List ℝ) : specMean g = mean g := by
  unfold specMean mean
  rw [listSumFin]

lemma specSS_eq (g : List ℝ) : specSS g = sumSqDev g := by
  unfold specSS sumSqDev
  rw [listMapSumFin (fun x => (x - mean g) ^ 2) g, specMean_eq]

lemma specVar_eq (g : List ℝ) : specVar g = varSample g := by
  simp [specVar, varSample, specSS_eq]

/-- Total pooled size as the spec writes it, Σ n_i, equals the length of the
concatenated data cast to the reals. -/
lemma flattenLengthFin (gs : List (List ℝ)) :
    ((gs.flatten.length : ℕ) : ℝ) = ∑ i : Fin gs.length, ((gs.get i).length : ℝ) := by
  rw [List.length_flatten, Nat.cast_list_sum, List.map_map]
  exact listMapSumFin (fun g => ((g.length : ℕ) : ℝ)) gs

/-! ## C2: zero-variance guard on the Cohen effect sizes -/

/-- C2 (amended): both Cohen effect-size computations perform their division
unconditionally — the quotient by the (pooled) standard deviation is always
taken, with no zero-divisor guard and no undefined marker in the returned
record. -/
theorem C2_unguarded_division :
    (∀ g mu, (calculate_cohens_d_one_sample g mu).value =
      (mean g - mu) / stdSample g) ∧
    (∀ g1 g2, (calculate_cohens_d g1 g2).value =
      (mean g1 - mean g2) / pooledStd g1 g2) :=
  ⟨fun _ _ => rfl, fun _ _ => rfl⟩

/-- C2 (counterexample): a group of five identical values has sample standard
deviation zero (and pooled standard deviation zero against itself), yet both
Cohen computations still return the ordinary numeric record whose `value` is
exactly the quotient with that zero divisor; the divisions are not guarded
and no explicit undefined marker is produced (the result record has no such
variant — at runtime the unguarded float division propagates a non-finite
value). -/
theorem C2_counterexample :
    stdSample [5, 5, 5, 5, 5] = 0 ∧
    pooledStd [5, 5, 5, 5, 5] [5, 5, 5, 5, 5] = 0 ∧
    (calculate_cohens_d_one_sample [5, 5, 5, 5, 5] 0).value =
      (mean [5, 5, 5, 5, 5] - 0) / stdSample [5, 5, 5, 5, 5] ∧
    (calculate_cohens_d [5, 5, 5, 5, 5] [5, 5, 5, 5, 5]).value =
      (mean [5, 5, 5, 5, 5] - mean [5, 5, 5, 5, 5]) /
        pooledStd [5, 5, 5, 5, 5] [5, 5, 5, 5, 5] := by
  have hm : mean [5, 5, 5, 5, 5] = 5 := by norm_num [mean]
  have hss : sumSqDev [5, 5, 5, 5, 5] = 0 := by norm_num [sumSqDev, hm]
  have hv : varSample [5, 5, 5, 5, 5] = 0 := by norm_num [varSample, hss]
  have hstd : stdSample [5, 5, 5, 5, 5] = 0 := by
    rw [stdSample, hv, Real.sqrt_zero]
  have hp : pooledStd [5, 5, 5, 5, 5] [5, 5, 5, 5, 5] = 0 := by
    simp [pooledStd, hv]
  exact ⟨hstd, hp, rfl, rfl⟩

/-! ## C3: the Tukey HSD pair p-value -/

/-- C3 (amended): for every post-hoc pair under the equal-variance ANOVA
branch, with MSE = pooled within-group sum of squares / (N - k),
se = sqrt(MSE (1/n1 + 1/n2) / 2) and q = |mean1 - mean2| / se, the raw
p-value equals 1 - Phi(q / sqrt 2) — the factor 2 asserted by the claim is
absent from the code. -/
theorem C3_tukey_p_formula (normCdf : ℝ → ℝ) (g1 g2 : List ℝ) (k : ℕ)
    (gs : List (List ℝ)) :
    (tukey_hsd_pair normCdf g1 g2 k gs).p_value =
      1 - normCdf (|specMean g1 - specMean g2| /
        Real.sqrt ((∑ i : Fin gs.length, specSS (gs.get i)) /
            ((∑ i : Fin gs.length, ((gs.get i).length : ℝ)) - k) *
          (1 / (g1.length : ℝ) + 1 / (g2.length : ℝ)) / 2) / Real.sqrt 2) := by
  have h1 : (gs.map sumSqDev).sum = ∑ i : Fin gs.length, specSS (gs.get i) := by
    rw [listMapSumFin sumSqDev gs]
    exact Finset.sum_congr rfl fun i _ => (specSS_eq _).symm
  simp only [tukey_hsd_pair, tukey_q, specMean_eq, ← h1, ← flattenLengthFin]

/-- C3 (counterexample): the claimed identity
p = 2 (1 - Phi(q / sqrt 2)) fails for the code at a concrete input: the code
returns 1 - Phi(q / sqrt 2), and for any function in the range (0, 1) — as
the standard normal CDF is — the two differ.  Exhibited with a concrete
CDF stand-in taking the value 1/2. -/
theorem C3_counterexample :
    ∃ normCdf : ℝ → ℝ, (∀ x, 0 < normCdf x ∧ normCdf x < 1) ∧
      (tukey_hsd_pair normCdf [1, 2] [3, 5] 3 [[1, 2], [3, 5], [9, 11]]).p_value ≠
        2 * (1 - normCdf
          (tukey_q [1, 2] [3, 5] 3 [[1, 2], [3, 5], [9, 11]] / Real.sqrt 2)) := by
  refine ⟨fun _ => 1 / 2, fun x => ⟨by norm_num, by norm_num⟩, ?_⟩
  simp only [tukey_hsd_pair]
  norm_num

/-! ## C4: the Dunn test z statistic -/

/-- Modelled from the spec: the tie term Σ (t³ - t) over the tied value
groups of the pooled data, with t the multiplicity of each distinct value
(exactly the Counter-based tie correction of the repository's own
validate-dunn-games-howell.py, dunn_test_manual). -/
def specTieTerm (pooled : List ℝ) : ℝ :=
  (pooled.dedup.map fun v =>
    ((pooled.count v : ℕ) : ℝ) ^ 3 - ((pooled.count v : ℕ) : ℝ)).sum

/-- Modelled from the spec: the tie-corrected rank variance
S² = [N(N+1)(2N+1)/6 - tie_term/2]/(N-1) when ties exist, else N(N+1)/12. -/
def specRankVar (pooled : List ℝ) : ℝ :=
  let N : ℝ := pooled.length
  if specTieTerm pooled > 0 then
    (N * (N + 1) * (2 * N + 1) / 6 - specTieTerm pooled / 2) / (N - 1)
  else N * (N + 1) / 12

/-- Modelled from the spec: the mean pooled rank of group t — the mean of
the ranks assigned to that group's own observations inside the pooled
(concatenated in group order) data. -/
def specMeanRank (gs : List (List ℝ)) (t : ℕ) : ℝ :=
  let ranks := rankdata gs.flatten
  mean ((ranks.drop (((gs.take t).map List.length).sum)).take (gs.getD t []).length)

/-- Modelled from the spec: Dunn z for the pair (i, j):
z = |meanRank_i - meanRank_j| / sqrt(S² (1/n_i + 1/n_j)). -/
def specDunnZ (gs : List (List ℝ)) (i j : ℕ) : ℝ :=
  |specMeanRank gs i - specMeanRank gs j| /
    Real.sqrt (specRankVar gs.flatten *
      (1 / ((gs.getD i []).length : ℝ) + 1 / ((gs.getD j []).length : ℝ)))

/-- C4: at groups [[10,10],[1],[5]] and the post-hoc pair (i, j) = (1, 2)
(group1 = [1], group2 = [5]), the z statistic actually computed by
dunn_test_pair is 0 — its two mean ranks are both read from the leading
positions of the pooled rank array, which belong to group 0, and no tie
correction is applied — while the z the claim specifies (and the repository's
own validation script computes) is 1/sqrt 18.  The code contradicts the
claimed formula. -/
theorem C4_dunn_code_vs_spec :
    dunn_z [1] [5] [[10, 10], [1], [5]] = 0 ∧
    specDunnZ [[10, 10], [1], [5]] 1 2 = 1 / Real.sqrt 18 ∧
    dunn_z [1] [5] [[10, 10], [1], [5]] ≠ specDunnZ [[10, 10], [1], [5]] 1 2 := by
  have hflat : ([[10, 10], [1], [5]] : List (List ℝ)).flatten = [10, 10, 1, 5] := by
    simp
  have hr : rankdata [10, 10, 1, 5] = [7 / 2, 7 / 2, 1, 2] := by
    norm_num [rankdata, rankOf, List.countP_cons, List.countP_nil,
      decide_eq_true_eq]
  have h1 : dunn_z [1] [5] [[10, 10], [1], [5]] = 0 := by
    rw [dunn_z]
    rw [hflat, hr]
    norm_num [mean]
  have hded : ([10, 10, 1, 5] : List ℝ).dedup = [10, 1, 5] := by
    rw [List.dedup_cons_of_mem (by norm_num),
      List.dedup_cons_of_not_mem (by norm_num),
      List.dedup_cons_of_not_mem (by norm_num),
      List.dedup_cons_of_not_mem (by norm_num), List.dedup_nil]
  have htie : specTieTerm [10, 10, 1, 5] = 6 := by
    rw [specTieTerm, hded]
    norm_num [List.count_cons, beq_iff_eq]
  have hS : specRankVar [10, 10, 1, 5] = 9 := by
    rw [specRankVar]
    rw [if_pos (by rw [htie]; norm_num)]
    rw [htie]
    norm_num
  have h2 : specDunnZ [[10, 10], [1], [5]] 1 2 = 1 / Real.sqrt 18 := by
    rw [specDunnZ, specMeanRank, specMeanRank]
    rw [hflat, hr, hS]
    norm_num [mean]
  refine ⟨h1, h2, ?_⟩
  rw [h1, h2]
  have h3 : 0 < 1 / Real.sqrt 18 := by positivity
  exact ne_of_lt h3

/-! ## Concrete stand-ins for the scipy black box (used by witnesses) -/

/-- The classical equal-variance one-way ANOVA F statistic,
(SS_between / (k-1)) / (SS_within / (N-k)); models the statistic of the
external stats.f_oneway when a witness instantiates the black box. -/
def onewayF (gs : List (List ℝ)) : ℝ :=
  let grand := mean gs.flatten
  let ssb := (gs.map fun g => (g.length : ℝ) * (mean g - grand) ^ 2).sum
  let ssw := (gs.map sumSqDev).sum
  (ssb / ((gs.length : ℝ) - 1)) / (ssw / ((gs.flatten.length : ℝ) - gs.length))

/-- A concrete instantiation of the scipy black box: shapiro raises its
documented error below 3 observations (scipy: "Data must be at least length
3.") and otherwise reports p = 0.3; f_oneway returns the classical one-way F;
the distribution CDF stand-ins are constantly 1/2; every other test reports a
p of 0.01. -/
def probeScipy : Scipy where
  shapiro := fun g =>
    if g.length < 3 then .error "Data must be at least length 3."
    else .ok (1, 3 / 10)
  kstest := fun _ => .ok (1, 3 / 10)
  skew := fun _ => 0
  kurtosis := fun _ => 0
  levene := fun _ => .ok (1, 3 / 10)
  bartlett := fun _ => .ok (1, 2 / 100)
  ttest_1samp := fun _ _ => .ok (2, 1 / 100)
  ttest_ind := fun _ _ _ => .ok (2, 1 / 100)
  mannwhitneyu := fun _ _ _ => .ok (3, 1 / 100)
  f_oneway := fun gs => .ok (onewayF gs, 1 / 100)
  kruskal := fun _ => .ok (4, 1 / 100)
  normCdf := fun _ => 1 / 2
  tCdf := fun _ _ => 1 / 2
  tPpf := fun _ _ => 2
  fCdf := fun _ _ _ => 1 / 2
  fmt := fun _ _ => "num"

/-! ## C5: the request's options are never consulted -/

/-- C5 (amended): the engine's significance and confidence levels are the
fixed constants 0.05 and 0.95 set in __init__; `analyze` never reads the
request's options, so any two requests differing only in options produce
identical responses. -/
theorem C5_options_ignored :
    (∀ (s : Scipy) (groups : List (List ℝ)) (labels : Option (List String))
      (o o' : Options),
      analyze s { groups := groups, labels := labels, options := o } =
        analyze s { groups := groups, labels := labels, options := o' }) ∧
    significance_level = 0.05 ∧ confidence_level = 0.95 :=
  ⟨fun _ _ _ _ _ => rfl, rfl, rfl⟩

/-- C5 (counterexample): under probeScipy the sample [1,2,3] gets normality
p-value 0.3.  The claim demands that with options.alpha = 0.9 the is-normal
decision flip (0.3 > 0.9 is false) relative to alpha = 0.05 (0.3 > 0.05 is
true) — yet the engine returns the bit-identical response for both requests:
supplying non-default options changes nothing. -/
theorem C5_counterexample :
    probeScipy.shapiro [1, 2, 3] = .ok (1, 3 / 10) ∧
    analyze probeScipy
        { groups := [[1, 2, 3]], labels := none,
          options := { alpha := 9 / 10, confidence := 95 / 100 } } =
      analyze probeScipy
        { groups := [[1, 2, 3]], labels := none,
          options := { alpha := 5 / 100, confidence := 95 / 100 } } ∧
    ((3 : ℝ) / 10 > 5 / 100) ∧ ¬((3 : ℝ) / 10 > 9 / 10) :=
  ⟨rfl, rfl, by norm_num, by norm_num⟩

/-! ## C1: samples with fewer than 3 observations -/

/-- On the small-sample path a raising shapiro call aborts the normality
entry. -/
lemma normalityEntry_error (s : Scipy) (g : List ℝ) (lbl : String) (e : String)
    (hlen : g.length < 50) (he : s.shapiro g = .error e) :
    normalityEntry s g lbl = .error e := by
  rw [normalityEntry, if_pos hlen, he]
  rfl

/-- If some group of the zipped (group, label) list has fewer than 3
observations, every group takes the small-sample path, and shapiro raises on
short input, then the normality loop raises. -/
lemma normalityLoop_short_errors (s : Scipy)
    (hrai : ∀ g : List ℝ, g.length < 3 → ∃ e, s.shapiro g = .error e) :
    ∀ pairs : List (List ℝ × String),
      (∀ p ∈ pairs, p.1.length < 50) →
      (∃ p ∈ pairs, p.1.length < 3) →
      ∃ e, normalityLoop s pairs = .error e := by
  intro pairs
  induction pairs with
  | nil =>
    intro _ hex
    simp at hex
  | cons hd tl ih =>
    obtain ⟨g, lbl⟩ := hd
    intro hall hex
    by_cases hshort : g.length < 3
    · obtain ⟨e, he⟩ := hrai g hshort
      have h50 : g.length < 50 := hall (g, lbl) (List.mem_cons_self _ _)
      refine ⟨e, ?_⟩
      have hE := normalityEntry_error s g lbl e h50 he
      simp [normalityLoop, hE, Bind.bind, Except.bind]
    · have hex' : ∃ p ∈ tl, p.1.length < 3 := by
        obtain ⟨p, hp, hp3⟩ := hex
        rcases List.mem_cons.mp hp with rfl | h
        · exact absurd hp3 hshort
        · exact ⟨p, h, hp3⟩
      obtain ⟨e, he⟩ :=
        ih (fun q hq => hall q (List.mem_cons_of_mem _ hq)) hex'
      cases hEntry : normalityEntry s g lbl with
      | error e' =>
        exact ⟨e', by simp [normalityLoop, hEntry, Bind.bind, Except.bind]⟩
      | ok en =>
        exact ⟨e, by simp [normalityLoop, hEntry, he, Bind.bind, Except.bind]⟩

/-- C1 (amended): a request containing a sample with fewer than 3
observations (all groups on the small-sample path) does NOT complete: the
shapiro call raises, the top-level handler catches it, and the whole
analysis returns the failure response — no insufficient-data marker exists
and no per-sample degradation happens. -/
theorem C1_short_sample_aborts (s : Scipy) (req : Request)
    (hlab : (labelsOf req).length = req.groups.length)
    (hsmall : ∀ g ∈ req.groups, g.length < 50)
    (hshort : ∃ g ∈ req.groups, g.length < 3)
    (hrai : ∀ g : List ℝ, g.length < 3 → ∃ e, s.shapiro g = .error e) :
    (analyze s req).isSuccess = false := by
  have hzip_small : ∀ p ∈ req.groups.zip (labelsOf req), p.1.length < 50 := by
    intro p hp
    obtain ⟨a, b⟩ := p
    exact hsmall a (List.of_mem_zip hp).1
  have hzip_len : (req.groups.zip (labelsOf req)).length = req.groups.length := by
    rw [List.length_zip, hlab, min_self]
  have hzip_short : ∃ p ∈ req.groups.zip (labelsOf req), p.1.length < 3 := by
    obtain ⟨g, hg, h3⟩ := hshort
    obtain ⟨i, hi, hgi⟩ := List.mem_iff_getElem.mp hg
    have hiz : i < (req.groups.zip (labelsOf req)).length := by
      rw [hzip_len]; exact hi
    refine ⟨(req.groups.zip (labelsOf req))[i], List.getElem_mem hiz, ?_⟩
    rw [List.getElem_zip]
    simpa [hgi] using h3
  obtain ⟨e, he⟩ :=
    normalityLoop_short_errors s hrai _ hzip_small hzip_short
  have hTN : test_normality s req.groups (labelsOf req) = .error e := by
    simp [test_normality, he, Bind.bind, Except.bind]
  have hAE : analyzeE s req = .error e := by
    simp [analyzeE, hTN, Bind.bind, Except.bind]
  simp [analyze, hAE, AnalyzeResponse.isSuccess]

/-- A concrete request holding one two-observation sample. -/
def shortReq : Request where
  groups := [[1, 2]]
  labels := none
  options := { alpha := 5 / 100, confidence := 95 / 100 }

/-- Witness for C1_short_sample_aborts: the concrete request with the
two-observation sample [1, 2] under probeScipy. -/
theorem C1_witness :
    (analyze probeScipy shortReq).isSuccess = false := by
  apply C1_short_sample_aborts
  · rfl
  · intro g hg
    simp only [shortReq, List.mem_singleton] at hg
    subst hg
    norm_num
  · exact ⟨[1, 2], by simp [shortReq], by norm_num⟩
  · intro g hg
    refine ⟨"Data must be at least length 3.", ?_⟩
    simp only [probeScipy]
    rw [if_pos hg]

/-- C1 (counterexample): the two-observation sample makes the whole analysis
fail with the raised shapiro message — the response is the failure record,
not a success with an insufficient-data marker. -/
theorem C1_counterexample :
    analyze probeScipy shortReq =
      .failure "Data must be at least length 3." := rfl

/-! ## C7: post_hoc is non-null iff more than 2 groups and significance -/

lemma exceptBind_ok_iff {α β : Type} (e : Except String α)
    (f : α → Except String β) (b : β) :
    (e >>= f) = .ok b ↔ ∃ a, e = .ok a ∧ f a = .ok b := by
  cases e <;> simp [Bind.bind, Except.bind]

lemma analyzeE_posthoc (s : Scipy) (req : Request) (r : SuccessRecord)
    (hE : analyzeE s req = .ok r) :
    (r.post_hoc ≠ none ↔
      (2 < req.groups.length ∧ r.test.significant = true)) := by
  simp only [analyzeE] at hE
  obtain ⟨norm, hN, hE⟩ := (exceptBind_ok_iff _ _ _).mp hE
  obtain ⟨homo, hH, hE⟩ := (exceptBind_ok_iff _ _ _).mp hE
  obtain ⟨test, hT, hE⟩ := (exceptBind_ok_iff _ _ _).mp hE
  by_cases hc : 2 < req.groups.length ∧ test.significant = true
  · rw [if_pos hc] at hE
    obtain ⟨ph, hP, hE⟩ := (exceptBind_ok_iff _ _ _).mp hE
    simp only [pure, Except.pure] at hE
    injection hE with hE
    subst hE
    cases hY : perform_post_hoc s req.groups (labelsOf req) test.test_type
        norm.all_normal homo.equal_variance with
    | error e => rw [hY] at hP; exact absurd hP (by simp [Except.map])
    | ok p =>
      rw [hY] at hP
      simp only [Except.map] at hP
      injection hP with hP
      simp [← hP, hc]
  · rw [if_neg hc] at hE
    simp only [pure, Except.pure, Bind.bind, Except.bind] at hE
    injection hE with hE
    subst hE
    simp [hc]

/-- C7: for every successful analysis, the post_hoc field is non-null iff
the group count exceeds 2 and the omnibus test was significant (so in
particular a two-group request never yields a non-null post_hoc). -/
theorem C7_posthoc_iff (s : Scipy) (req : Request)
    (h : (analyze s req).isSuccess = true) :
    (analyze s req).postHoc ≠ none ↔
      (2 < req.groups.length ∧ (analyze s req).testSignificant = true) := by
  cases hE : analyzeE s req with
  | error e =>
    exfalso
    simp [analyze, hE, AnalyzeResponse.isSuccess] at h
  | ok r =>
    have hA : analyze s req = .success r := by simp [analyze, hE]
    rw [hA]
    simp only [AnalyzeResponse.postHoc, AnalyzeResponse.testSignificant]
    exact analyzeE_posthoc s req r hE

/-- A concrete single-group request (three observations). -/
def oneGroupReq : Request where
  groups := [[1, 2, 3]]
  labels := none
  options := { alpha := 5 / 100, confidence := 95 / 100 }

/-- Witness for C7_posthoc_iff: probeScipy on the single-group request
completes successfully, and the equivalence holds there. -/
theorem C7_witness :
    (analyze probeScipy oneGroupReq).postHoc ≠ none ↔
      (2 < oneGroupReq.groups.length ∧
        (analyze probeScipy oneGroupReq).testSignificant = true) :=
  C7_posthoc_iff probeScipy oneGroupReq rfl

/-! ## C9: the homogeneity stage -/

/-- C9: below 2 groups the homogeneity stage returns null results and a
trivially true equal-variance decision; with at least 2 groups and both
library calls returning, the binding `equal_variance` decision is exactly
(Levene p > alpha) — a function of the Levene p-value alone — while the
Bartlett statistic and p-value are only carried in the reference results. -/
theorem C9_homogeneity (s : Scipy) (gs : List (List ℝ)) (lbls : List String) :
    (gs.length < 2 →
      test_homogeneity s gs lbls = .ok
        { results := none, equal_variance := true,
          note := "단일 그룹으로 등분산성 검정 불필요" }) ∧
    (∀ lst lp bst bp : ℝ, 2 ≤ gs.length →
      s.levene gs = .ok (lst, lp) →
      s.bartlett gs = .ok (bst, bp) →
      ∃ out, test_homogeneity s gs lbls = .ok out ∧
        out.equal_variance = decide (lp > significance_level) ∧
        out.results.map
            (fun r => (r.1.statistic, r.1.p_value, r.2.statistic, r.2.p_value)) =
          some (lst, lp, bst, bp)) := by
  constructor
  · intro h
    rw [test_homogeneity, if_pos h]
  · intro lst lp bst bp h2 hl hb
    rw [test_homogeneity, if_neg (by omega)]
    simp only [hl, hb, Bind.bind, Except.bind]
    exact ⟨_, rfl, rfl, rfl⟩

/-- Witness for C9_homogeneity: both branches at concrete inputs under
probeScipy (Levene p = 0.3, Bartlett p = 0.02). -/
theorem C9_witness :
    (test_homogeneity probeScipy [[1]] [] = .ok
      { results := none, equal_variance := true,
        note := "단일 그룹으로 등분산성 검정 불필요" }) ∧
    (∃ out, test_homogeneity probeScipy [[1], [2]] [] = .ok out ∧
      out.equal_variance = decide ((3 : ℝ) / 10 > significance_level) ∧
      out.results.map
          (fun r => (r.1.statistic, r.1.p_value, r.2.statistic, r.2.p_value)) =
        some (1, 3 / 10, 1, 2 / 100)) :=
  ⟨(C9_homogeneity probeScipy [[1]] []).1 (by norm_num),
   (C9_homogeneity probeScipy [[1], [2]] []).2 1 (3 / 10) 1 (2 / 100)
     (by norm_num) rfl rfl⟩

/-! ## C6: the Welch ANOVA derivation -/

/-- The spec's Welch weight w_i = n_i / var_i. -/
def specW (g : List ℝ) : ℝ := (g.length : ℝ) / specVar g

/-- The spec's lambda: 3 Σ[(1 - w_i/W)² / (n_i - 1)] / (k² - 1). -/
def specWelchLambda (gs : List (List ℝ)) : ℝ :=
  let k : ℝ := gs.length
  let W := ∑ i : Fin gs.length, specW (gs.get i)
  3 * (∑ i : Fin gs.length,
    (1 - specW (gs.get i) / W) ^ 2 / (((gs.get i).length : ℝ) - 1)) / (k ^ 2 - 1)

/-- The spec's Welch F: numerator Σ w_i (m_i - grand)² / (k - 1) over
denominator 1 + 2 (k - 2) lambda / (k² - 1), with the weighted grand mean. -/
def specWelchF (gs : List (List ℝ)) : ℝ :=
  let k : ℝ := gs.length
  let W := ∑ i : Fin gs.length, specW (gs.get i)
  let grand := (∑ i : Fin gs.length, specW (gs.get i) * specMean (gs.get i)) / W
  let num := (∑ i : Fin gs.length,
    specW (gs.get i) * (specMean (gs.get i) - grand) ^ 2) / (k - 1)
  num / (1 + 2 * (k - 2) * specWelchLambda gs / (k ^ 2 - 1))

lemma welch_anova_eq_spec (fCdf : ℝ → ℝ → ℝ → ℝ) (gs : List (List ℝ)) :
    welch_anova fCdf gs =
      (specWelchF gs,
       1 - fCdf (specWelchF gs) ((gs.length : ℝ) - 1)
         (1 / specWelchLambda gs)) := by
  have hw : ∀ g : List ℝ, (g.length : ℝ) / varSample g = specW g := fun g => by
    rw [specW, specVar_eq]
  have hW : (gs.map fun g => (g.length : ℝ) / varSample g).sum =
      ∑ i : Fin gs.length, specW (gs.get i) := by
    rw [listMapSumFin]
    exact Finset.sum_congr rfl fun i _ => hw _
  have hGM : (gs.map fun g => (g.length : ℝ) / varSample g * mean g).sum =
      ∑ i : Fin gs.length, specW (gs.get i) * specMean (gs.get i) := by
    rw [listMapSumFin]
    exact Finset.sum_congr rfl fun i _ => by rw [hw, specMean_eq]
  have hNum : ∀ gm : ℝ,
      (gs.map fun g => (g.length : ℝ) / varSample g * (mean g - gm) ^ 2).sum =
        ∑ i : Fin gs.length, specW (gs.get i) * (specMean (gs.get i) - gm) ^ 2 :=
    fun gm => by
      rw [listMapSumFin]
      exact Finset.sum_congr rfl fun i _ => by rw [hw, specMean_eq]
  have hLam : ∀ w : ℝ,
      (gs.map fun g =>
        (1 - (g.length : ℝ) / varSample g / w) ^ 2 / ((g.length : ℝ) - 1)).sum =
      ∑ i : Fin gs.length,
        (1 - specW (gs.get i) / w) ^ 2 / (((gs.get i).length : ℝ) - 1) :=
    fun w => by
      rw [listMapSumFin]
      exact Finset.sum_congr rfl fun i _ => by rw [hw]
  simp only [welch_anova, specWelchF, specWelchLambda, hW, hGM, hNum, hLam]

/-- C6: the Welch ANOVA of the source computes exactly the spec's
derivation — weights, weighted grand mean, numerator, lambda, denominator,
F = numerator/denominator, df1 = k - 1, df2 = 1/lambda, and p the upper tail
1 - F_cdf(F, df1, df2) — and on the more-than-2-groups, all-normal,
unequal-variance branch that pair is what the omnibus test reports. -/
theorem C6_welch_formula :
    (∀ (fCdf : ℝ → ℝ → ℝ → ℝ) (gs : List (List ℝ)),
      welch_anova fCdf gs =
        (specWelchF gs,
         1 - fCdf (specWelchF gs) ((gs.length : ℝ) - 1)
           (1 / specWelchLambda gs))) ∧
    (∀ (s : Scipy) (gs : List (List ℝ)) (lbls : List String) (f0 p0 : ℝ),
      2 < gs.length → s.f_oneway gs = .ok (f0, p0) →
      ∃ t, perform_statistical_test s gs lbls true false = .ok t ∧
        t.test_type = .welchAnova ∧
        t.statistic = specWelchF gs ∧
        t.p_value = 1 - s.fCdf (specWelchF gs) ((gs.length : ℝ) - 1)
          (1 / specWelchLambda gs) ∧
        t.significant = decide (t.p_value < significance_level)) := by
  refine ⟨welch_anova_eq_spec, ?_⟩
  intro s gs lbls f0 p0 h3 hf
  have h1 : gs.length ≠ 1 := by omega
  have h2 : gs.length ≠ 2 := by omega
  rw [perform_statistical_test, if_neg h1, if_neg h2]
  simp only [if_pos rfl, Bool.false_eq_true, if_false, if_true,
    calculate_omega_squared, hf, Bind.bind, Except.bind,
    welch_anova_eq_spec s.fCdf gs]
  exact ⟨_, rfl, rfl, rfl, rfl, rfl⟩

/-- Three concrete groups with unequal variances, used by the C6 and C10
witnesses; the classical one-way F here is 121/6 while the Welch F is
1936/163. -/
def threeGroups : List (List ℝ) := [[0, 2], [0, 2], [10, 14]]

/-- Witness for C6_welch_formula: the dispatch clause applied at
threeGroups under probeScipy. -/
theorem C6_witness :
    ∃ t, perform_statistical_test probeScipy threeGroups [] true false = .ok t ∧
      t.test_type = .welchAnova ∧
      t.statistic = specWelchF threeGroups ∧
      t.p_value = 1 - probeScipy.fCdf (specWelchF threeGroups)
        ((threeGroups.length : ℝ) - 1) (1 / specWelchLambda threeGroups) ∧
      t.significant = decide (t.p_value < significance_level) :=
  C6_welch_formula.2 probeScipy threeGroups [] (onewayF threeGroups) (1 / 100)
    (by norm_num [threeGroups]) rfl

/-! ## C10: the omega-squared effect size uses a fresh classical F -/

/-- C10: on the Welch branch (more than 2 groups, normal, unequal variance)
the reported omnibus statistic is the Welch F, while the omega-squared
effect size is computed from the freshly obtained stats.f_oneway statistic
f0 through (f0 - 1)/(f0 + (df_within + 1)/df_between), floored at 0 — not
from the reported Welch statistic. -/
theorem C10_omega_uses_oneway (s : Scipy) (gs : List (List ℝ))
    (lbls : List String) (f0 p0 : ℝ)
    (h3 : 2 < gs.length) (hf : s.f_oneway gs = .ok (f0, p0)) :
    ∃ t, perform_statistical_test s gs lbls true false = .ok t ∧
      t.statistic = (welch_anova s.fCdf gs).1 ∧
      t.effect_size.value =
        max 0 ((f0 - 1) / (f0 +
          ((((gs.map List.length).sum : ℕ) : ℝ) - (gs.length : ℝ) + 1) /
            ((gs.length : ℝ) - 1))) := by
  have h1 : gs.length ≠ 1 := by omega
  have h2 : gs.length ≠ 2 := by omega
  rw [perform_statistical_test, if_neg h1, if_neg h2]
  simp only [if_pos rfl, Bool.false_eq_true, if_false, if_true,
    calculate_omega_squared, hf, Bind.bind, Except.bind]
  exact ⟨_, rfl, rfl, rfl⟩

/-- Witness for C10_omega_uses_oneway at threeGroups under probeScipy
(whose f_oneway returns the classical one-way F), together with the
concrete disagreement of the two F statistics there: the classical F is
121/6, the reported Welch statistic 1936/163. -/
theorem C10_witness :
    (∃ t, perform_statistical_test probeScipy threeGroups [] true false = .ok t ∧
      t.statistic = (welch_anova probeScipy.fCdf threeGroups).1 ∧
      t.effect_size.value =
        max 0 ((onewayF threeGroups - 1) / (onewayF threeGroups +
          ((((threeGroups.map List.length).sum : ℕ) : ℝ) -
            (threeGroups.length : ℝ) + 1) /
            ((threeGroups.length : ℝ) - 1)))) ∧
    onewayF threeGroups ≠ (welch_anova probeScipy.fCdf threeGroups).1 := by
  constructor
  · exact C10_omega_uses_oneway probeScipy threeGroups []
      (onewayF threeGroups) (1 / 100) (by norm_num [threeGroups]) rfl
  · have ho : onewayF threeGroups = 121 / 6 := by
      norm_num [onewayF, threeGroups, mean, sumSqDev]
    have hw : (welch_anova probeScipy.fCdf threeGroups).1 = 1936 / 163 := by
      norm_num [welch_anova, threeGroups, mean, varSample, sumSqDev]
    rw [ho, hw]
    norm_num

/-! ## C8: Bonferroni adjustment in the post-hoc driver -/

/-- The comparison list of a post-hoc result (empty when the stage raised). -/
def phComparisons : Except String PostHocOut → List Comparison
  | .ok o => o.comparisons
  | .error _ => []

/-- The reported corrected alpha of a post-hoc result (junk 0 when the stage
raised). -/
def phAlpha : Except String PostHocOut → ℝ
  | .ok o => o.bonferroni_alpha
  | .error _ => 0

lemma two_sided_p_bounds {c : ℝ} (h0 : 0 ≤ c) (h1 : c ≤ 1) (hm : 1 / 2 ≤ c) :
    0 ≤ 2 * (1 - c) ∧ 2 * (1 - c) ≤ 1 :=
  ⟨by linarith, by linarith⟩

/-- Every raw pairwise p-value produced by the three post-hoc methods lies in
[0, 1], provided the distribution CDF black boxes behave like CDFs (range in
[0, 1], at least 1/2 on nonnegative arguments). -/
lemma mkComparison_p_bounds (s : Scipy) (m : PosthocMethod)
    (groups : List (List ℝ)) (labels : List String) (nC : ℝ) (ij : ℕ × ℕ)
    (hn : ∀ x, 0 ≤ s.normCdf x ∧ s.normCdf x ≤ 1)
    (hnm : ∀ x, 0 ≤ x → 1 / 2 ≤ s.normCdf x)
    (ht : ∀ x d, 0 ≤ s.tCdf x d ∧ s.tCdf x d ≤ 1)
    (htm : ∀ x d, 0 ≤ x → 1 / 2 ≤ s.tCdf x d) :
    0 ≤ (mkComparison s m groups labels nC ij).p_value ∧
      (mkComparison s m groups labels nC ij).p_value ≤ 1 := by
  cases m with
  | tukey =>
    simp only [mkComparison, tukey_hsd_pair]
    exact ⟨by linarith [(hn (tukey_q (groups.getD ij.1 []) (groups.getD ij.2 [])
        groups.length groups / Real.sqrt 2)).2],
      by linarith [(hn (tukey_q (groups.getD ij.1 []) (groups.getD ij.2 [])
        groups.length groups / Real.sqrt 2)).1]⟩
  | gamesHowell =>
    simp only [mkComparison, games_howell_pair]
    exact two_sided_p_bounds (ht _ _).1 (ht _ _).2 (htm _ _ (by positivity))
  | dunn =>
    simp only [mkComparison, dunn_test_pair]
    have hz : 0 ≤ dunn_z (groups.getD ij.1 []) (groups.getD ij.2 []) groups := by
      simp only [dunn_z]
      positivity
    exact two_sided_p_bounds (hn _).1 (hn _).2 (hnm _ hz)

lemma headD_mem {α : Type} {l : List α} (d : α) (h : l ≠ []) : l.headD d ∈ l := by
  cases l with
  | nil => exact absurd rfl h
  | cons a t => simp

lemma pairIndices_mem01 {n : ℕ} (h : 2 ≤ n) : (0, 1) ∈ pairIndices n := by
  simp only [pairIndices, List.mem_flatMap, List.mem_map, List.mem_filter,
    List.mem_range]
  exact ⟨0, by omega, 1, ⟨by omega, by decide⟩, rfl⟩

/-- C8: every post-hoc comparison's adjusted p equals
min(raw p · C, 1) with C = k(k-1)/2, hence adjusted p ≥ raw p and
adjusted p ≤ 1, and the reported corrected alpha is alpha / C. -/
theorem C8_bonferroni (s : Scipy) (groups : List (List ℝ))
    (labels : List String) (tt : TestType) (inb eqv : Bool)
    (h3 : 3 ≤ groups.length)
    (hm : (resolveMethod tt eqv).isSome = true)
    (hn : ∀ x, 0 ≤ s.normCdf x ∧ s.normCdf x ≤ 1)
    (hnm : ∀ x, 0 ≤ x → 1 / 2 ≤ s.normCdf x)
    (ht : ∀ x d, 0 ≤ s.tCdf x d ∧ s.tCdf x d ≤ 1)
    (htm : ∀ x d, 0 ≤ x → 1 / 2 ≤ s.tCdf x d) :
    phAlpha (perform_post_hoc s groups labels tt inb eqv) =
      significance_level /
        ((groups.length : ℝ) * ((groups.length : ℝ) - 1) / 2) ∧
    ∀ c ∈ phComparisons (perform_post_hoc s groups labels tt inb eqv),
      c.adjusted_p =
        min (c.p_value * ((groups.length : ℝ) * ((groups.length : ℝ) - 1) / 2)) 1 ∧
      c.p_value ≤ c.adjusted_p ∧ c.adjusted_p ≤ 1 := by
  obtain ⟨md, hmd⟩ := Option.isSome_iff_exists.mp hm
  have hne : ¬ ((pairIndices groups.length).map
      (mkComparison s md.1 groups labels
        ((groups.length : ℝ) * ((groups.length : ℝ) - 1) / 2))).isEmpty := by
    rw [List.isEmpty_iff]
    intro hnil
    have h01 := pairIndices_mem01 (n := groups.length) (by omega)
    have hmem : (mkComparison s md.1 groups labels
        ((groups.length : ℝ) * ((groups.length : ℝ) - 1) / 2)) (0, 1) ∈
        (pairIndices groups.length).map
          (mkComparison s md.1 groups labels
            ((groups.length : ℝ) * ((groups.length : ℝ) - 1) / 2)) :=
      List.mem_map_of_mem _ h01
    rw [hnil] at hmem
    exact absurd hmem (List.not_mem_nil _)
  simp only [perform_post_hoc, hmd]
  rw [if_neg hne]
  have hC : (1 : ℝ) ≤ (groups.length : ℝ) * ((groups.length : ℝ) - 1) / 2 := by
    have h3r : (3 : ℝ) ≤ (groups.length : ℝ) := by exact_mod_cast h3
    nlinarith
  refine ⟨rfl, ?_⟩
  intro c hc
  simp only [phComparisons] at hc
  obtain ⟨ij, hij, rfl⟩ := List.mem_map.mp hc
  have hpb := mkComparison_p_bounds s md.1 groups labels
    ((groups.length : ℝ) * ((groups.length : ℝ) - 1) / 2) ij hn hnm ht htm
  refine ⟨rfl, ?_, min_le_right _ _⟩
  exact le_min (le_mul_of_one_le_right hpb.1 hC) hpb.2

/-- The head comparison of the post-hoc output at a concrete Kruskal-Wallis
input, used by the C8 witness. -/
def c8head : Comparison :=
  (phComparisons (perform_post_hoc probeScipy [[1], [2], [3]] ["a", "b", "c"]
    .kruskalWallis false false)).headD
    { group1 := "", group2 := "", mean_diff := 0, p_value := 0,
      adjusted_p := 0, significant := false, ci_lower := 0, ci_upper := 0 }

/-- Witness for C8_bonferroni: the Dunn branch at three singleton groups
under probeScipy (whose CDF stand-ins, constantly 1/2, satisfy the CDF
hypotheses), applied to the head comparison. -/
theorem C8_witness :
    phAlpha (perform_post_hoc probeScipy [[1], [2], [3]] ["a", "b", "c"]
        .kruskalWallis false false) =
      significance_level /
        ((([[1], [2], [3]] : List (List ℝ)).length : ℝ) *
          ((([[1], [2], [3]] : List (List ℝ)).length : ℝ) - 1) / 2) ∧
    (c8head.adjusted_p =
      min (c8head.p_value *
        ((([[1], [2], [3]] : List (List ℝ)).length : ℝ) *
          ((([[1], [2], [3]] : List (List ℝ)).length : ℝ) - 1) / 2)) 1 ∧
      c8head.p_value ≤ c8head.adjusted_p ∧ c8head.adjusted_p ≤ 1) := by
  have h := C8_bonferroni probeScipy [[1], [2], [3]] ["a", "b", "c"]
    .kruskalWallis false false (by norm_num) rfl
    (fun x => ⟨by norm_num [probeScipy], by norm_num [probeScipy]⟩)
    (fun x _ => by norm_num [probeScipy])
    (fun x d => ⟨by norm_num [probeScipy], by norm_num [probeScipy]⟩)
    (fun x d _ => by norm_num [probeScipy])
  refine ⟨h.1, h.2 c8head ?_⟩
  have hEmpty : (phComparisons (perform_post_hoc probeScipy [[1], [2], [3]]
      ["a", "b", "c"] .kruskalWallis false false)).isEmpty = false := rfl
  have hne : phComparisons (perform_post_hoc probeScipy [[1], [2], [3]]
      ["a", "b", "c"] .kruskalWallis false false) ≠ [] := by
    intro hnil
    rw [hnil] at hEmpty
    exact absurd hEmpty (by simp)
  simpa only [c8head] using headD_mem _ hne

end
